import Mathlib

/-!
Verification of the row-settling model (`row_performance_analyzer.py`,
`performance_graphs.py`): a bank of memory rows is rewritten in bulk sweeps,
each write triggering a fixed settling delay before the row is usable again.
The tick-by-tick simulation and the two closed-form usable-fraction
calculators are embedded below; Python `int` is modelled as `ℤ`, Python
floor division `//` as `Int.fdiv`, Python float results as `ℚ`, and a Python
`ZeroDivisionError` raise as `Option.none` (the only exception the embedded
code can raise).
-/

namespace RowPerformanceAnalyzer

/-- One row: `color` (0 = green, 1 = blue) and the nanosecond instant at which
the row becomes usable again; mirrors class `RowState` in
`src/row_performance_analyzer.py`. -/
structure RowState where
  color : ℤ
  usable_time : ℤ
deriving DecidableEq

/-- `RowState.write_row`: flips the color and sets the usable time to the
current time plus the hardcoded 1 microsecond (1000 ns) settling time. -/
def write_row (r : RowState) (current_time_ns : ℤ) : RowState :=
  { color := 1 - r.color, usable_time := current_time_ns + 1000 }

/-- The loop state threaded through `calculate_row_states_over_time`'s tick
loop: the row array and the sweep state-machine variables. -/
structure SimState where
  rows : List RowState
  masterColor : ℤ
  changeInProgress : Bool
  currentRowIndex : ℕ
deriving DecidableEq

/-- Initial loop state: `total_rows` fresh `RowState()` instances (color green,
usable at 0), master color green, no sweep in progress.  Python's
`range(total_rows)` is empty for a non-positive count, hence `Int.toNat`. -/
def initState (total_rows : ℤ) : SimState :=
  { rows := List.replicate total_rows.toNat { color := 0, usable_time := 0 }
    masterColor := 0
    changeInProgress := false
    currentRowIndex := 0 }

/-- One iteration of the tick loop body of `calculate_row_states_over_time`
(state-machine part only, the counting scan is separate): start a sweep when
idle at tick 10 or 4000, write one row while a sweep is in progress, and
return to idle (flipping the master color) once every row has been written. -/
def simStep (total_rows : ℤ) (time_ns : ℤ) (s : SimState) : SimState :=
  let s :=
    if s.changeInProgress = false ∧ (time_ns = 10 ∨ time_ns = 4000) then
      { s with changeInProgress := true, currentRowIndex := 0 }
    else s
  let s :=
    if s.changeInProgress = true ∧ (s.currentRowIndex : ℤ) < total_rows then
      { s with
          rows := s.rows.set s.currentRowIndex
            (write_row (s.rows.getD s.currentRowIndex { color := 0, usable_time := 0 }) time_ns)
          currentRowIndex := s.currentRowIndex + 1 }
    else s
  if (s.currentRowIndex : ℤ) ≥ total_rows ∧ s.changeInProgress = true then
    { s with changeInProgress := false, masterColor := 1 - s.masterColor }
  else s

/-- The per-tick scan of the row array: `(settled green, settled blue,
unsettled)` counts, classifying exactly as the Python loop does
(`usable_time > time` first, then by color). -/
def countRows (time_ns : ℤ) : List RowState → ℤ × ℤ × ℤ
  | [] => (0, 0, 0)
  | r :: rs =>
    let c := countRows time_ns rs
    if r.usable_time > time_ns then (c.1, c.2.1, c.2.2 + 1)
    else if r.color = 0 then (c.1 + 1, c.2.1, c.2.2)
    else (c.1, c.2.1 + 1, c.2.2)

/-- One output record of the simulation:
`(time_ns, settled green rows, settled blue rows, unsettled rows)`. -/
structure Sample where
  time : ℤ
  settled_green : ℤ
  settled_blue : ℤ
  unsettled : ℤ
deriving DecidableEq

/-- The sample appended at tick `t`: the counts of the scan of the loop state
after the tick's mutations. -/
def mkSample (time_ns : ℤ) (s : SimState) : Sample :=
  let c := countRows time_ns s.rows
  { time := time_ns, settled_green := c.1, settled_blue := c.2.1, unsettled := c.2.2 }

/-- The loop state after ticks `1, 2, ..., n` have run (the Python loop's
mutable variables at the end of iteration `n`). -/
def stateAfter (total_rows : ℤ) : ℕ → SimState
  | 0 => initState total_rows
  | n + 1 => simStep total_rows ((n : ℤ) + 1) (stateAfter total_rows n)

/-- `calculate_row_states_over_time(usage_time_ns, total_rows)`: the sample at
`t = 0` (all rows counted settled green, by the literal appends in the source)
followed by one sample per tick `1 .. usage_time_ns`; Python's
`range(1, usage_time_ns + 1)` is empty when the horizon is not positive. -/
def calculate_row_states_over_time (usage_time_ns : ℤ) (total_rows : ℤ) : List Sample :=
  { time := 0, settled_green := total_rows, settled_blue := 0, unsettled := 0 } ::
    (List.range usage_time_ns.toNat).map
      (fun (i : ℕ) => mkSample ((i : ℤ) + 1) (stateAfter total_rows (i + 1)))

/-- Iterating the tick body over the consecutive ticks
`t0, t0 + 1, ..., t0 + k - 1`, as happens during a sweep. -/
def sweepIter (total_rows t0 : ℤ) : ℕ → SimState → SimState
  | 0, s => s
  | k + 1, s => simStep total_rows (t0 + (k : ℤ)) (sweepIter total_rows t0 k s)

/-- `calculate_usable_fraction(usage_time_us, total_rows, write_time_per_row_us,
settling_time_us)` from `src/row_performance_analyzer.py`.  `none` models the
Python `ZeroDivisionError`: the very first statement divides by
`write_time_per_row_us`, and the final `usable_rows / total_rows` would divide
by zero only if `total_rows = 0` were reachable there. -/
def calculate_usable_fraction (usage_time_us total_rows write_time_per_row_us
    settling_time_us : ℤ) : Option ℚ :=
  if write_time_per_row_us = 0 then none
  else
    let rows_written := min (usage_time_us.fdiv write_time_per_row_us) total_rows
    if rows_written = 0 then some 1
    else
      let settling_cutoff_time := usage_time_us - settling_time_us
      let rows_settling :=
        if settling_cutoff_time > 0 then
          rows_written - min rows_written (settling_cutoff_time.fdiv write_time_per_row_us)
        else rows_written
      let usable_rows := total_rows - rows_settling
      if total_rows = 0 then none
      else some ((usable_rows : ℚ) / (total_rows : ℚ))

/-- `calculate_trapezoid_width(N, total_rows)` from
`src/row_performance_analyzer.py`: two ramps of `total_rows` cycles each, plus
a flat top of `N - total_rows` cycles when `N` exceeds the row count. -/
def calculate_trapezoid_width (N : ℤ) (total_rows : ℤ) : ℤ :=
  if N ≤ total_rows then 2 * total_rows
  else 2 * total_rows + (N - total_rows)

end RowPerformanceAnalyzer

namespace PerformanceGraphs

/-- `calculate_usable_fraction(usage_time_ns, total_rows, write_time_per_row_ns,
settling_time_us)` from `performance_graphs.py`.  Unlike the
`row_performance_analyzer` version it converts the settling time from
microseconds to nanoseconds, and when the settling cutoff is not positive it
leaves `rows_settling = 0` (there is no `else` branch in the source).  `none`
models the Python `ZeroDivisionError` exactly as in the other embedding. -/
def calculate_usable_fraction (usage_time_ns total_rows write_time_per_row_ns
    settling_time_us : ℤ) : Option ℚ :=
  let settling_time_ns := settling_time_us * 1000
  if write_time_per_row_ns = 0 then none
  else
    let rows_written := min (usage_time_ns.fdiv write_time_per_row_ns) total_rows
    if rows_written = 0 then some 1
    else
      let settling_cutoff_time := usage_time_ns - settling_time_ns
      let rows_settling :=
        if settling_cutoff_time > 0 then
          min (max 0 (rows_written - settling_cutoff_time.fdiv write_time_per_row_ns))
            rows_written
        else 0
      let usable_rows := total_rows - rows_settling
      if total_rows = 0 then none
      else some ((usable_rows : ℚ) / (total_rows : ℚ))

end PerformanceGraphs

/-- The pipeline efficiency metric `total_computations / width =
(N * total_rows) / calculate_trapezoid_width(N, total_rows)` computed inline by
`generate_graph_1` and `print_analysis` in `src/row_performance_analyzer.py`
(there with `total_rows = 1024`), exposed with the row count as a parameter as
in the spec's interface list. -/
def pipelineEfficiency (N total_rows : ℤ) : ℚ :=
  ((N * total_rows : ℤ) : ℚ) /
    ((RowPerformanceAnalyzer.calculate_trapezoid_width N total_rows : ℤ) : ℚ)

namespace RowPerformanceAnalyzer

/-- The three counters of the scan always total the number of rows scanned:
each row is classified into exactly one bucket. -/
theorem countRows_sum (time_ns : ℤ) (l : List RowState) :
    (countRows time_ns l).1 + (countRows time_ns l).2.1 + (countRows time_ns l).2.2 =
      (l.length : ℤ) := by
  induction l with
  | nil => simp [countRows]
  | cons r rs ih =>
    simp only [countRows, List.length_cons]
    split
    · push_cast
      omega
    · split
      · push_cast
        omega
      · push_cast
        omega

/-- A tick never changes the number of rows in the bank. -/
theorem simStep_rows_length (total_rows time_ns : ℤ) (s : SimState) :
    ((simStep total_rows time_ns s).rows).length = s.rows.length := by
  simp only [simStep]
  split_ifs <;> simp [List.length_set]

/-- The bank keeps exactly `total_rows.toNat` rows at every tick. -/
theorem stateAfter_rows_length (total_rows : ℤ) (n : ℕ) :
    ((stateAfter total_rows n).rows).length = total_rows.toNat := by
  induction n with
  | zero => simp [stateAfter, initState]
  | succ n ih => simp [stateAfter, simStep_rows_length, ih]

end RowPerformanceAnalyzer

open RowPerformanceAnalyzer in
/-- Claim C4: every sample produced by the simulation — the initial `t = 0`
sample included — partitions the bank: settled green + settled blue +
unsettled equals the total row count. -/
theorem claim_C4_conservation (usage_time_ns total_rows : ℤ) (hR : 0 ≤ total_rows) :
    ∀ x ∈ calculate_row_states_over_time usage_time_ns total_rows,
      x.settled_green + x.settled_blue + x.unsettled = total_rows := by
  intro x hx
  simp only [calculate_row_states_over_time, List.mem_cons, List.mem_map] at hx
  rcases hx with h0 | ⟨i, _, hi⟩
  · subst h0
    simp
  · subst hi
    simp only [mkSample]
    rw [countRows_sum, stateAfter_rows_length, Int.toNat_of_nonneg hR]

open RowPerformanceAnalyzer in
/-- Witness for C4 at a concrete configuration: the initial sample of a
two-row, one-tick run. -/
theorem claim_C4_conservation_witness :
    ((0 : ℤ) ≤ 2 ∧
      Sample.mk 0 2 0 0 ∈ calculate_row_states_over_time 1 2) ∧
      (Sample.mk 0 2 0 0).settled_green + (Sample.mk 0 2 0 0).settled_blue +
        (Sample.mk 0 2 0 0).unsettled = 2 :=
  ⟨⟨by decide, by decide⟩,
    claim_C4_conservation 1 2 (by decide) (Sample.mk 0 2 0 0) (by decide)⟩

open RowPerformanceAnalyzer in
/-- Counterexample to claim C3 as stated: a run with a negative horizon is not
rejected — `calculate_row_states_over_time` silently returns a (nonempty)
sample sequence consisting of the initial `t = 0` sample, because Python's
`range(1, usage_time_ns + 1)` is simply empty; no validation exists. -/
theorem claim_C3_counterexample :
    calculate_row_states_over_time (-1) 1024 =
      [{ time := 0, settled_green := 1024, settled_blue := 0, unsettled := 0 }] ∧
      calculate_row_states_over_time (-1) 1024 ≠ [] := by
  constructor
  · decide
  · decide

open RowPerformanceAnalyzer in
/-- Claim C3 as amended: a negative horizon is silently clamped to an empty
tick loop — the simulation returns exactly the initial `t = 0` sample and
nothing else, for every row count; no configuration error is raised. -/
theorem claim_C3_amended (usage_time_ns total_rows : ℤ) (h : usage_time_ns < 0) :
    calculate_row_states_over_time usage_time_ns total_rows =
      [{ time := 0, settled_green := total_rows, settled_blue := 0, unsettled := 0 }] := by
  unfold calculate_row_states_over_time
  have hz : usage_time_ns.toNat = 0 := Int.toNat_of_nonpos (le_of_lt h)
  rw [hz]
  simp

/-- Witness for the amended C3 at the concrete negative horizon `-1`. -/
theorem claim_C3_amended_witness :
    (-1 : ℤ) < 0 ∧
      RowPerformanceAnalyzer.calculate_row_states_over_time (-1) 5 =
        [{ time := 0, settled_green := 5, settled_blue := 0, unsettled := 0 }] :=
  ⟨by decide, claim_C3_amended (-1) 5 (by decide)⟩

namespace RowPerformanceAnalyzer

/-- A mid-sweep tick: the trigger check is skipped, exactly one row is
written (the row index advances by one), and the controller leaves the
sweeping state — flipping the master color — exactly when the advanced index
reaches the row count. -/
theorem simStep_sweeping (total_rows time_ns : ℤ) (s : SimState)
    (h1 : s.changeInProgress = true) (h2 : (s.currentRowIndex : ℤ) < total_rows) :
    (simStep total_rows time_ns s).currentRowIndex = s.currentRowIndex + 1 ∧
      ((simStep total_rows time_ns s).changeInProgress = true ↔
        (s.currentRowIndex : ℤ) + 1 < total_rows) ∧
      (simStep total_rows time_ns s).masterColor =
        (if (s.currentRowIndex : ℤ) + 1 ≥ total_rows then 1 - s.masterColor
         else s.masterColor) := by
  obtain ⟨rows, mc, cip, idx⟩ := s
  dsimp only at h1 h2 ⊢
  subst h1
  simp [simStep, h2, Nat.cast_add, Nat.cast_one]
  by_cases h3 : total_rows ≤ (idx : ℤ) + 1
  · simp only [if_pos h3]
    refine ⟨by trivial, ?_, by trivial⟩
    simp
    omega
  · simp only [if_neg h3]
    refine ⟨by trivial, ?_, by trivial⟩
    simp
    omega

end RowPerformanceAnalyzer

namespace RowPerformanceAnalyzer

/-- The tick on which a sweep starts: from an idle state at a trigger time,
row 0 is written (the index advances from 0 to 1) and the controller stays
sweeping unless the bank has a single row. -/
theorem simStep_trigger (total_rows time_ns : ℤ) (s : SimState)
    (h1 : s.changeInProgress = false) (ht : time_ns = 10 ∨ time_ns = 4000)
    (hR : 1 ≤ total_rows) :
    (simStep total_rows time_ns s).currentRowIndex = 1 ∧
      ((simStep total_rows time_ns s).changeInProgress = true ↔ (1 : ℤ) < total_rows) ∧
      (simStep total_rows time_ns s).masterColor =
        (if (1 : ℤ) ≥ total_rows then 1 - s.masterColor else s.masterColor) := by
  obtain ⟨rows, mc, cip, idx⟩ := s
  dsimp only at h1 ⊢
  subst h1
  have h0 : (0 : ℤ) < total_rows := by omega
  rcases ht with h | h
  · subst h
    simp [simStep, h0]
    by_cases h3 : total_rows ≤ (1 : ℤ)
    · rw [if_pos h3]
      refine ⟨by trivial, ?_, by dsimp only; split_ifs <;> omega⟩
      simp
      omega
    · rw [if_neg h3]
      refine ⟨by trivial, ?_, by dsimp only; split_ifs <;> omega⟩
      simp
      omega
  · subst h
    simp [simStep, h0]
    by_cases h3 : total_rows ≤ (1 : ℤ)
    · rw [if_pos h3]
      refine ⟨by trivial, ?_, by dsimp only; split_ifs <;> omega⟩
      simp
      omega
    · rw [if_neg h3]
      refine ⟨by trivial, ?_, by dsimp only; split_ifs <;> omega⟩
      simp
      omega

end RowPerformanceAnalyzer

open RowPerformanceAnalyzer in
/-- Claim C5: starting from any idle state at a sweep trigger tick, after `k`
ticks (`1 ≤ k ≤ totalRows`) exactly `k` rows have been written — one per
tick — the controller is still sweeping exactly while `k < totalRows` (so it
returns to idle on the tick of the last write, `totalRows` ticks after the
start; no write-time parameter exists in the simulation), and the master
color is unchanged mid-sweep and flipped exactly at completion. -/
theorem claim_C5_sweep_progression (total_rows t0 : ℤ) (s : SimState) (k : ℕ)
    (hidle : s.changeInProgress = false) (ht : t0 = 10 ∨ t0 = 4000)
    (hk1 : 1 ≤ k) (hk2 : (k : ℤ) ≤ total_rows) :
    (sweepIter total_rows t0 k s).currentRowIndex = k ∧
      ((sweepIter total_rows t0 k s).changeInProgress = true ↔ (k : ℤ) < total_rows) ∧
      (sweepIter total_rows t0 k s).masterColor =
        (if (k : ℤ) = total_rows then 1 - s.masterColor else s.masterColor) := by
  induction k with
  | zero => omega
  | succ k ih =>
    rcases Nat.eq_or_lt_of_le hk1 with h1 | h1
    · have hk0 : k = 0 := by omega
      subst hk0
      simp only [sweepIter, Nat.cast_zero, add_zero]
      have hR1 : (1 : ℤ) ≤ total_rows := by push_cast at hk2; omega
      have htr := simStep_trigger total_rows t0 s hidle ht hR1
      refine ⟨by rw [htr.1], ?_, ?_⟩
      · rw [htr.2.1]
        push_cast
        omega
      · rw [htr.2.2]
        push_cast
        split_ifs <;> omega
    · have hk : 1 ≤ k := by omega
      have hklt : (k : ℤ) < total_rows := by push_cast at hk2; omega
      obtain ⟨hidx, hprog, hmc⟩ := ih hk (le_of_lt hklt)
      have hs : (sweepIter total_rows t0 k s).changeInProgress = true := hprog.mpr hklt
      have hlt : ((sweepIter total_rows t0 k s).currentRowIndex : ℤ) < total_rows := by
        rw [hidx]; exact hklt
      have hstep := simStep_sweeping total_rows (t0 + (k : ℤ))
        (sweepIter total_rows t0 k s) hs hlt
      rw [hidx] at hstep
      simp only [sweepIter]
      refine ⟨by rw [hstep.1], ?_, ?_⟩
      · rw [hstep.2.1]
        push_cast
        omega
      · rw [hstep.2.2, hmc]
        push_cast
        split_ifs <;> omega

open RowPerformanceAnalyzer in
/-- Witness for C5: a two-row bank swept from the idle initial state starting
at trigger tick 10 — after 2 ticks the index is 2, the controller is idle
again, and the master color has flipped once. -/
theorem claim_C5_sweep_progression_witness :
    ((initState 2).changeInProgress = false ∧ ((10 : ℤ) = 10 ∨ (10 : ℤ) = 4000) ∧
        1 ≤ 2 ∧ ((2 : ℕ) : ℤ) ≤ 2) ∧
      ((sweepIter 2 10 2 (initState 2)).currentRowIndex = 2 ∧
        ((sweepIter 2 10 2 (initState 2)).changeInProgress = true ↔ ((2 : ℕ) : ℤ) < 2) ∧
        (sweepIter 2 10 2 (initState 2)).masterColor =
          (if ((2 : ℕ) : ℤ) = 2 then 1 - (initState 2).masterColor
           else (initState 2).masterColor)) :=
  ⟨⟨by decide, Or.inl rfl, by omega, by decide⟩,
    claim_C5_sweep_progression 2 10 (initState 2) 2 (by decide) (Or.inl rfl)
      (by omega) (by decide)⟩


/-- Counterexample to claim C2 as stated: `trapezoidWidth(25000, 1024)` is
`26024`, not `25024` — the claim's own formula `2048 + (25000 - 1024)`
evaluates to `26024`, so the claim's numeral `25024` is an arithmetic slip,
and the code computes `26024`. -/
theorem claim_C2_trapezoid_counterexample :
    RowPerformanceAnalyzer.calculate_trapezoid_width 25000 1024 = 26024 ∧
      (2048 : ℤ) + (25000 - 1024) = 26024 ∧ (26024 : ℤ) ≠ 25024 := by
  refine ⟨by decide, by decide, by decide⟩

/-- Claim C2 as amended: `trapezoidWidth(1024, 1024) = 2048`,
`trapezoidWidth(2048, 1024) = 3072`, and
`trapezoidWidth(25000, 1024) = 2048 + (25000 - 1024) = 26024`. -/
theorem claim_C2_trapezoid_scenario_amended :
    RowPerformanceAnalyzer.calculate_trapezoid_width 1024 1024 = 2048 ∧
      RowPerformanceAnalyzer.calculate_trapezoid_width 2048 1024 = 3072 ∧
      RowPerformanceAnalyzer.calculate_trapezoid_width 25000 1024 =
        2048 + (25000 - 1024) := by
  refine ⟨by decide, by decide, by decide⟩

/-- Claim C6: for nonnegative `N` and row count, the trapezoid width is
`2 * totalRows` when `N ≤ totalRows`, `2 * totalRows + (N - totalRows)`
otherwise, and is never negative. -/
theorem claim_C6_trapezoid_form (N total_rows : ℤ) (hN : 0 ≤ N) (hR : 0 ≤ total_rows) :
    RowPerformanceAnalyzer.calculate_trapezoid_width N total_rows =
      (if N ≤ total_rows then 2 * total_rows else 2 * total_rows + (N - total_rows)) ∧
      0 ≤ RowPerformanceAnalyzer.calculate_trapezoid_width N total_rows := by
  unfold RowPerformanceAnalyzer.calculate_trapezoid_width
  refine ⟨rfl, ?_⟩
  split_ifs <;> omega

/-- Witness for C6 at `N = 3`, `totalRows = 2`. -/
theorem claim_C6_trapezoid_form_witness :
    ((0 : ℤ) ≤ 3 ∧ (0 : ℤ) ≤ 2) ∧
      (RowPerformanceAnalyzer.calculate_trapezoid_width 3 2 =
          (if (3 : ℤ) ≤ 2 then 2 * 2 else 2 * 2 + (3 - 2)) ∧
        0 ≤ RowPerformanceAnalyzer.calculate_trapezoid_width 3 2) :=
  ⟨⟨by decide, by decide⟩, claim_C6_trapezoid_form 3 2 (by decide) (by decide)⟩

/-- Claim C10: with a zero write time per row, both closed-form
usable-fraction implementations hit the Python `ZeroDivisionError` (modelled
as `none`) on their very first division, for every usage time, row count and
settling time. -/
theorem claim_C10_zero_write_time (T R S : ℤ) :
    RowPerformanceAnalyzer.calculate_usable_fraction T R 0 S = none ∧
      PerformanceGraphs.calculate_usable_fraction T R 0 S = none := by
  constructor
  · simp [RowPerformanceAnalyzer.calculate_usable_fraction]
  · simp [PerformanceGraphs.calculate_usable_fraction]

/-- Counterexample to claim C7 as stated: the boundary identities are claimed
for every write time, but at `write_time_per_row = 0` the closed form raises
`ZeroDivisionError` (modelled as `none`) instead of returning `1.0`, in both
implementations. -/
theorem claim_C7_counterexample :
    RowPerformanceAnalyzer.calculate_usable_fraction 0 1024 0 1 = none ∧
      PerformanceGraphs.calculate_usable_fraction 0 1024 0 1 = none ∧
      (none : Option ℚ) ≠ some 1 := by
  refine ⟨by simp [RowPerformanceAnalyzer.calculate_usable_fraction],
    by simp [PerformanceGraphs.calculate_usable_fraction], by simp⟩

/-- Boundary identities of the `row_performance_analyzer` closed form for a
positive write time and nonnegative arguments: target time zero, zero
settling time, and an empty bank each give a usable fraction of exactly 1
with no division by zero. -/
theorem rpa_uf_boundary (T R W S : ℤ) (hW : 1 ≤ W) (hT : 0 ≤ T) (hR : 0 ≤ R) (hS : 0 ≤ S) :
    RowPerformanceAnalyzer.calculate_usable_fraction 0 R W S = some 1 ∧
      RowPerformanceAnalyzer.calculate_usable_fraction T R W 0 = some 1 ∧
      RowPerformanceAnalyzer.calculate_usable_fraction T 0 W S = some 1 := by
  have hW0 : ¬ (W = 0) := by omega
  have hq0 : (0 : ℤ).fdiv W = 0 := Int.zero_fdiv W
  have hqT : 0 ≤ T.fdiv W := Int.fdiv_nonneg hT (by omega)
  refine ⟨?_, ?_, ?_⟩
  · simp only [RowPerformanceAnalyzer.calculate_usable_fraction]
    rw [if_neg hW0, if_pos (by rw [hq0]; omega)]
  · simp only [RowPerformanceAnalyzer.calculate_usable_fraction]
    rw [if_neg hW0]
    by_cases h0 : min (T.fdiv W) R = 0
    · rw [if_pos h0]
    · rw [if_neg h0]
      have hq1 : 1 ≤ T.fdiv W := by omega
      have hR1 : 1 ≤ R := by omega
      have hTW : W ≤ T := by
        rw [Int.fdiv_eq_ediv T (by omega : (0:ℤ) ≤ W)] at hq1
        have := (Int.le_ediv_iff_mul_le (by omega : (0:ℤ) < W)).mp hq1
        omega
      have hc : T - 0 > 0 := by omega
      rw [if_pos hc]
      have hmin : min (min (T.fdiv W) R) ((T - 0).fdiv W) = min (T.fdiv W) R := by
        have : (T - 0).fdiv W = T.fdiv W := by norm_num
        rw [this]
        omega
      rw [hmin, if_neg (by omega : ¬ (R = 0))]
      have : (R : ℚ) ≠ 0 := Int.cast_ne_zero.mpr (by omega)
      simp [div_self this]
  · simp only [RowPerformanceAnalyzer.calculate_usable_fraction]
    rw [if_neg hW0, if_pos (by omega : min (T.fdiv W) 0 = 0)]


/-- Boundary identities of the `performance_graphs` closed form, as in
`rpa_uf_boundary`. -/
theorem pg_uf_boundary (T R W S : ℤ) (hW : 1 ≤ W) (hT : 0 ≤ T) (hR : 0 ≤ R) (hS : 0 ≤ S) :
    PerformanceGraphs.calculate_usable_fraction 0 R W S = some 1 ∧
      PerformanceGraphs.calculate_usable_fraction T R W 0 = some 1 ∧
      PerformanceGraphs.calculate_usable_fraction T 0 W S = some 1 := by
  have hW0 : ¬ (W = 0) := by omega
  have hq0 : (0 : ℤ).fdiv W = 0 := Int.zero_fdiv W
  have hqT : 0 ≤ T.fdiv W := Int.fdiv_nonneg hT (by omega)
  refine ⟨?_, ?_, ?_⟩
  · simp only [PerformanceGraphs.calculate_usable_fraction]
    rw [if_neg hW0, if_pos (by rw [hq0]; omega)]
  · simp only [PerformanceGraphs.calculate_usable_fraction]
    rw [if_neg hW0]
    by_cases h0 : min (T.fdiv W) R = 0
    · rw [if_pos h0]
    · rw [if_neg h0]
      have hR1 : 1 ≤ R := by omega
      by_cases hc : T - 0 * 1000 > 0
      · rw [if_pos hc]
        have hz : T - 0 * 1000 = T := by ring
        rw [hz]
        have hmin : min (max 0 (min (T.fdiv W) R - T.fdiv W)) (min (T.fdiv W) R) = 0 := by
          omega
        rw [hmin, if_neg (by omega : ¬ (R = 0))]
        have : (R : ℚ) ≠ 0 := Int.cast_ne_zero.mpr (by omega)
        simp [div_self this]
      · rw [if_neg hc, if_neg (by omega : ¬ (R = 0))]
        have hz : R - 0 = R := by ring
        rw [hz]
        have : (R : ℚ) ≠ 0 := Int.cast_ne_zero.mpr (by omega)
        simp [div_self this]
  · simp only [PerformanceGraphs.calculate_usable_fraction]
    rw [if_neg hW0, if_pos (by omega : min (T.fdiv W) 0 = 0)]

/-- Claim C7 as amended: restricted to a positive write time (`W ≥ 1`; at
`W = 0` both implementations raise, see C10) and nonnegative arguments, both
closed forms return exactly 1 at target time zero, at zero settling time, and
for an empty bank — in each case without dividing by zero. -/
theorem claim_C7_boundary_amended (T R W S : ℤ) (hW : 1 ≤ W) (hT : 0 ≤ T)
    (hR : 0 ≤ R) (hS : 0 ≤ S) :
    (RowPerformanceAnalyzer.calculate_usable_fraction 0 R W S = some 1 ∧
        PerformanceGraphs.calculate_usable_fraction 0 R W S = some 1) ∧
      (RowPerformanceAnalyzer.calculate_usable_fraction T R W 0 = some 1 ∧
        PerformanceGraphs.calculate_usable_fraction T R W 0 = some 1) ∧
      (RowPerformanceAnalyzer.calculate_usable_fraction T 0 W S = some 1 ∧
        PerformanceGraphs.calculate_usable_fraction T 0 W S = some 1) :=
  ⟨⟨(rpa_uf_boundary T R W S hW hT hR hS).1, (pg_uf_boundary T R W S hW hT hR hS).1⟩,
    ⟨(rpa_uf_boundary T R W S hW hT hR hS).2.1, (pg_uf_boundary T R W S hW hT hR hS).2.1⟩,
    ⟨(rpa_uf_boundary T R W S hW hT hR hS).2.2, (pg_uf_boundary T R W S hW hT hR hS).2.2⟩⟩

/-- Witness for the amended C7 at `T = 7`, `R = 5`, `W = 2`, `S = 3`. -/
theorem claim_C7_boundary_amended_witness :
    ((1 : ℤ) ≤ 2 ∧ (0 : ℤ) ≤ 7 ∧ (0 : ℤ) ≤ 5 ∧ (0 : ℤ) ≤ 3) ∧
      ((RowPerformanceAnalyzer.calculate_usable_fraction 0 5 2 3 = some 1 ∧
          PerformanceGraphs.calculate_usable_fraction 0 5 2 3 = some 1) ∧
        (RowPerformanceAnalyzer.calculate_usable_fraction 7 5 2 0 = some 1 ∧
          PerformanceGraphs.calculate_usable_fraction 7 5 2 0 = some 1) ∧
        (RowPerformanceAnalyzer.calculate_usable_fraction 7 0 2 3 = some 1 ∧
          PerformanceGraphs.calculate_usable_fraction 7 0 2 3 = some 1)) :=
  ⟨⟨by decide, by decide, by decide, by decide⟩,
    claim_C7_boundary_amended 7 5 2 3 (by decide) (by decide) (by decide) (by decide)⟩

/-- Counterexample to claim C9 as stated: at `T = 5`, `R = 1024`, `W = 1`,
`S_ns = 1000 = 1000 * S_us`, the `row_performance_analyzer` closed form
counts all five written rows as settling (fraction `1019/1024`) while the
`performance_graphs` closed form counts none (fraction `1`): its
`settling_cutoff_time > 0` branch has no `else`, so nothing settles while the
cutoff is nonpositive.  The two implementations are not the same function. -/
theorem claim_C9_counterexample :
    RowPerformanceAnalyzer.calculate_usable_fraction 5 1024 1 1000 = some (1019 / 1024) ∧
      PerformanceGraphs.calculate_usable_fraction 5 1024 1 1 = some 1 ∧
      RowPerformanceAnalyzer.calculate_usable_fraction 5 1024 1 1000 ≠
        PerformanceGraphs.calculate_usable_fraction 5 1024 1 1 := by
  have h1 : RowPerformanceAnalyzer.calculate_usable_fraction 5 1024 1 1000 =
      some (1019 / 1024) := by
    have hf : Int.fdiv 5 1 = 5 := by decide
    simp only [RowPerformanceAnalyzer.calculate_usable_fraction, hf, min_def, max_def]
    norm_num
  have h2 : PerformanceGraphs.calculate_usable_fraction 5 1024 1 1 = some 1 := by
    have hf : Int.fdiv 5 1 = 5 := by decide
    simp only [PerformanceGraphs.calculate_usable_fraction, hf, min_def, max_def]
    norm_num
  refine ⟨h1, h2, ?_⟩
  rw [h1, h2]
  intro hcontra
  have : (1019 / 1024 : ℚ) = 1 := Option.some_injective ℚ hcontra
  norm_num at this

/-- Claim C9 as amended: the two closed forms agree whenever the settling
cutoff is positive (`targetTime > settlingDuration`, expressed in the common
nanosecond unit via `S_ns = 1000 * S_us`), with a positive write time and
nonnegative arguments; they diverge exactly on the nonpositive-cutoff branch
exhibited by the counterexample. -/
theorem claim_C9_amended (T R W S_us : ℤ) (hT : 0 ≤ T) (hR : 0 ≤ R)
    (hW : 1 ≤ W) (hS : 0 ≤ S_us) (hcut : 1000 * S_us < T) :
    RowPerformanceAnalyzer.calculate_usable_fraction T R W (1000 * S_us) =
      PerformanceGraphs.calculate_usable_fraction T R W S_us := by
  simp only [RowPerformanceAnalyzer.calculate_usable_fraction,
    PerformanceGraphs.calculate_usable_fraction]
  have hW0 : ¬ (W = 0) := by omega
  rw [if_neg hW0, if_neg hW0]
  by_cases h0 : min (T.fdiv W) R = 0
  · rw [if_pos h0, if_pos h0]
  · rw [if_neg h0, if_neg h0]
    have heq : S_us * 1000 = 1000 * S_us := by ring
    rw [heq]
    have hc : T - 1000 * S_us > 0 := by omega
    rw [if_pos hc, if_pos hc]
    have hfd : 0 ≤ (T - 1000 * S_us).fdiv W := Int.fdiv_nonneg (by omega) (by omega)
    have hrw : 0 ≤ min (T.fdiv W) R := le_min (Int.fdiv_nonneg hT (by omega)) hR
    have hmm : min (T.fdiv W) R - min (min (T.fdiv W) R) ((T - 1000 * S_us).fdiv W) =
        min (max 0 (min (T.fdiv W) R - (T - 1000 * S_us).fdiv W)) (min (T.fdiv W) R) := by
      omega
    rw [hmm]


/-- Witness for the amended C9 at `T = 2000`, `R = 1024`, `W = 1`,
`S_us = 1`. -/
theorem claim_C9_amended_witness :
    ((0 : ℤ) ≤ 2000 ∧ (0 : ℤ) ≤ 1024 ∧ (1 : ℤ) ≤ 1 ∧ (0 : ℤ) ≤ 1 ∧
        (1000 : ℤ) * 1 < 2000) ∧
      RowPerformanceAnalyzer.calculate_usable_fraction 2000 1024 1 (1000 * 1) =
        PerformanceGraphs.calculate_usable_fraction 2000 1024 1 1 :=
  ⟨⟨by decide, by decide, by decide, by decide, by decide⟩,
    claim_C9_amended 2000 1024 1 1 (by decide) (by decide) (by decide) (by decide)
      (by decide)⟩

open Filter in
/-- Claim C8: the pipeline efficiency `(N * totalRows) / trapezoidWidth`
tends to `totalRows = 1024` as `N → ∞`; concretely the efficiency at
`N = 25000` exceeds the one at `N = 1024` and lies within 5 percent of
1024. -/
theorem claim_C8_pipeline_efficiency :
    Filter.Tendsto (fun n : ℕ => ((pipelineEfficiency n 1024 : ℚ) : ℝ)) Filter.atTop
        (nhds 1024) ∧
      pipelineEfficiency 1024 1024 < pipelineEfficiency 25000 1024 ∧
      |pipelineEfficiency 25000 1024 - 1024| ≤ (5 / 100) * 1024 := by
  have hv1 : pipelineEfficiency 1024 1024 = 512 := by
    norm_num [pipelineEfficiency, RowPerformanceAnalyzer.calculate_trapezoid_width]
  have hv2 : pipelineEfficiency 25000 1024 = 3200000 / 3253 := by
    norm_num [pipelineEfficiency, RowPerformanceAnalyzer.calculate_trapezoid_width]
  refine ⟨?_, ?_, ?_⟩
  · have ha : Tendsto (fun n : ℕ => (n : ℝ) + 1024) atTop atTop :=
      tendsto_atTop_add_const_right atTop 1024 tendsto_natCast_atTop_atTop
    have hb := ha.inv_tendsto_atTop
    have h0 : Tendsto (fun n : ℕ => (1024 : ℝ) ^ 2 * ((n : ℝ) + 1024)⁻¹) atTop
        (nhds ((1024 : ℝ) ^ 2 * 0)) := hb.const_mul _
    rw [mul_zero] at h0
    have h1 : Tendsto (fun n : ℕ => (1024 : ℝ) - 1024 ^ 2 * ((n : ℝ) + 1024)⁻¹) atTop
        (nhds ((1024 : ℝ) - 0)) := tendsto_const_nhds.sub h0
    rw [sub_zero] at h1
    refine h1.congr' ?_
    filter_upwards [eventually_ge_atTop 1025] with n hn
    have hgt : ¬ ((n : ℤ) ≤ 1024) := by exact_mod_cast Nat.not_le.mpr (by omega)
    have hw : RowPerformanceAnalyzer.calculate_trapezoid_width (n : ℤ) 1024 =
        (n : ℤ) + 1024 := by
      unfold RowPerformanceAnalyzer.calculate_trapezoid_width
      rw [if_neg hgt]
      ring
    have hne : (n : ℝ) + 1024 ≠ 0 := by positivity
    simp only [pipelineEfficiency, hw]
    push_cast
    field_simp
    ring
  · rw [hv1, hv2]
    norm_num
  · rw [hv2, abs_le]
    constructor <;> norm_num

namespace RowPerformanceAnalyzer

/-- Closed form of the row bank during the first sweep of the default run
(trigger tick 10, 1024 rows): after `k` writes, rows `0 .. k-1` are blue and
become usable at `1010 + i`, the rest are untouched. -/
def writtenRows (k : ℕ) : List RowState :=
  (List.range 1024).map
    (fun (i : ℕ) => if i < k then { color := 1, usable_time := 1010 + (i : ℤ) }
      else { color := 0, usable_time := 0 })

theorem writtenRows_zero :
    writtenRows 0 = List.replicate 1024 { color := 0, usable_time := 0 } := by
  apply List.ext_getElem
  · simp only [writtenRows, List.length_map, List.length_range, List.length_replicate]
  · intro i h1 h2
    simp only [writtenRows, List.length_map, List.length_range] at h1
    simp only [writtenRows, List.getElem_map, List.getElem_range, List.getElem_replicate]
    rw [if_neg (by omega)]

theorem writtenRows_getD (k : ℕ) (hk : k < 1024) :
    (writtenRows k).getD k { color := 0, usable_time := 0 } =
      { color := 0, usable_time := 0 } := by
  rw [List.getD_eq_getElem?_getD]
  simp only [writtenRows, List.getElem?_map, List.getElem?_range hk]
  simp

theorem writtenRows_succ (k : ℕ) (hk : k < 1024) :
    (writtenRows k).set k { color := 1, usable_time := 1010 + (k : ℤ) } =
      writtenRows (k + 1) := by
  apply List.ext_getElem
  · simp [writtenRows]
  · intro i h1 h2
    have hi : i < 1024 := by simpa [writtenRows] using h2
    rw [List.getElem_set]
    simp only [writtenRows, List.getElem_map, List.getElem_range]
    split_ifs with hik h1' h2' <;> first
      | rfl
      | (subst hik; simp at h1' ⊢) <;> omega
      | omega

end RowPerformanceAnalyzer

namespace RowPerformanceAnalyzer

/-- An idle tick away from both trigger instants leaves the loop state
unchanged. -/
theorem simStep_idle (total_rows time_ns : ℤ) (s : SimState)
    (h1 : s.changeInProgress = false) (h2 : ¬ (time_ns = 10))
    (h3 : ¬ (time_ns = 4000)) : simStep total_rows time_ns s = s := by
  obtain ⟨rows, mc, cip, idx⟩ := s
  dsimp only at h1
  subst h1
  simp [simStep, h2, h3]

theorem stateAfter_succ (total_rows : ℤ) (n : ℕ) :
    stateAfter total_rows (n + 1) =
      simStep total_rows ((n : ℤ) + 1) (stateAfter total_rows n) := rfl

/-- Ticks 1 through 9 of the default run are idle: no trigger has fired yet,
so the loop state is unchanged. -/
theorem stateAfter_pre (n : ℕ) (hn : n ≤ 9) : stateAfter 1024 n = initState 1024 := by
  induction n with
  | zero => rfl
  | succ n ih =>
    have h9 : n ≤ 9 := by omega
    rw [stateAfter_succ, ih h9]
    exact simStep_idle 1024 _ _ rfl (by omega) (by omega)

/-- The trigger tick of the default 1024-row run: row 0 is written and the
sweep starts. -/
theorem simStep_trigger1024 (time_ns : ℤ) (rows : List RowState) (mc : ℤ) (idx : ℕ)
    (ht : time_ns = 10 ∨ time_ns = 4000) :
    simStep 1024 time_ns
        { rows := rows, masterColor := mc, changeInProgress := false,
          currentRowIndex := idx } =
      { rows := rows.set 0 (write_row (rows.getD 0 { color := 0, usable_time := 0 }) time_ns)
        masterColor := mc
        changeInProgress := true
        currentRowIndex := 1 } := by
  rcases ht with h | h <;> subst h <;> simp [simStep]

/-- A sweep tick of the default 1024-row run that does not finish the sweep:
the indexed row is written and the index advances. -/
theorem simStep_sweep1024 (time_ns : ℤ) (rows : List RowState) (mc : ℤ) (k : ℕ)
    (hk : (k : ℤ) + 1 < 1024) :
    simStep 1024 time_ns
        { rows := rows, masterColor := mc, changeInProgress := true,
          currentRowIndex := k } =
      { rows := rows.set k (write_row (rows.getD k { color := 0, usable_time := 0 }) time_ns)
        masterColor := mc
        changeInProgress := true
        currentRowIndex := k + 1 } := by
  have h2 : (k : ℤ) < 1024 := by omega
  simp [simStep, h2, Nat.cast_add, Nat.cast_one]
  omega

/-- Closed form of the default run's loop state during the first sweep: after
ticks `10 .. 9 + k` (`1 ≤ k ≤ 1015`), rows `0 .. k - 1` have been written —
one per tick — and the sweep is still in progress. -/
theorem stateAfter_sweep1 (k : ℕ) (hk1 : 1 ≤ k) (hk2 : k ≤ 1015) :
    stateAfter 1024 (9 + k) =
      { rows := writtenRows k, masterColor := 0, changeInProgress := true,
        currentRowIndex := k } := by
  induction k with
  | zero => omega
  | succ k ih =>
    rcases Nat.eq_or_lt_of_le hk1 with h1 | h1
    · have hk0 : k = 0 := by omega
      subst hk0
      rw [show (9 + (0 + 1) : ℕ) = 9 + 1 from rfl, stateAfter_succ,
        stateAfter_pre 9 (by omega),
        show ((9 : ℕ) : ℤ) + 1 = 10 by norm_num]
      simp only [initState]
      rw [show Int.toNat 1024 = 1024 from rfl,
        simStep_trigger1024 10 _ _ _ (Or.inl rfl)]
      have hd : (List.replicate 1024 { color := 0, usable_time := 0 } :
          List RowState).getD 0 { color := 0, usable_time := 0 } =
          { color := 0, usable_time := 0 } := by
        rw [List.getD_eq_getElem?_getD, List.getElem?_replicate_of_lt (by omega)]
        rfl
      have hw : write_row { color := 0, usable_time := 0 } 10 =
          { color := 1, usable_time := 1010 + ((0 : ℕ) : ℤ) } := by
        simp [write_row]
      rw [hd, hw, ← writtenRows_zero, writtenRows_succ 0 (by omega)]
    · have hk : 1 ≤ k := by omega
      have hle : k ≤ 1015 := by omega
      rw [show (9 + (k + 1) : ℕ) = (9 + k) + 1 from rfl, stateAfter_succ, ih hk hle]
      have hcast : ((9 + k : ℕ) : ℤ) + 1 = 10 + (k : ℤ) := by push_cast; omega
      rw [hcast, simStep_sweep1024 _ _ _ _ (by omega), writtenRows_getD k (by omega)]
      have hw : write_row { color := 0, usable_time := 0 } (10 + (k : ℤ)) =
          { color := 1, usable_time := 1010 + (k : ℤ) } := by
        simp [write_row]
        ring
      rw [hw, writtenRows_succ k (by omega)]

end RowPerformanceAnalyzer

namespace RowPerformanceAnalyzer

/-- The scan counters are additive under list concatenation. -/
theorem countRows_append (time_ns : ℤ) (l1 l2 : List RowState) :
    countRows time_ns (l1 ++ l2) =
      ((countRows time_ns l1).1 + (countRows time_ns l2).1,
        (countRows time_ns l1).2.1 + (countRows time_ns l2).2.1,
        (countRows time_ns l1).2.2 + (countRows time_ns l2).2.2) := by
  induction l1 with
  | nil => simp [countRows]
  | cons r rs ih =>
    simp only [List.cons_append, countRows, List.append_eq]
    rw [ih]
    split_ifs <;> simp <;> omega

set_option maxRecDepth 8000 in
/-- The scan of the bank at tick 1024, when rows `0 .. 1014` have been
written: rows `0 .. 14` have settled blue, rows `15 .. 1014` are still
settling, rows `1015 .. 1023` are untouched green. -/
theorem countRows_writtenRows_1015 :
    countRows 1024 (writtenRows 1015) = (9, 15, 1000) := by
  have hsplit : writtenRows 1015 =
      ((List.range 512).map
          (fun (i : ℕ) => if i < 1015 then { color := 1, usable_time := 1010 + (i : ℤ) }
            else ({ color := 0, usable_time := 0 } : RowState))) ++
        ((List.range 512).map
          (fun (i : ℕ) => if 512 + i < 1015 then
              { color := 1, usable_time := 1010 + ((512 + i : ℕ) : ℤ) }
            else ({ color := 0, usable_time := 0 } : RowState))) := by
    simp only [writtenRows]
    rw [show (1024 : ℕ) = 512 + 512 by norm_num, List.range_add, List.map_append,
      List.map_map]
    rfl
  rw [hsplit, countRows_append]
  have h1 : countRows 1024
      ((List.range 512).map
        (fun (i : ℕ) => if i < 1015 then { color := 1, usable_time := 1010 + (i : ℤ) }
          else ({ color := 0, usable_time := 0 } : RowState))) = (0, 15, 497) := by
    decide
  have h2 : countRows 1024
      ((List.range 512).map
        (fun (i : ℕ) => if 512 + i < 1015 then
            { color := 1, usable_time := 1010 + ((512 + i : ℕ) : ℤ) }
          else ({ color := 0, usable_time := 0 } : RowState))) = (9, 0, 503) := by
    decide
  rw [h1, h2]
  rfl

end RowPerformanceAnalyzer

open RowPerformanceAnalyzer in
set_option maxRecDepth 4000 in
/-- Claim C1: for `(totalRows = 1024, writeTimePerRow = 1, settlingDuration =
1000 ns)`, the closed-form usable fraction at target time 1024 equals the
fraction of settled (green + blue) rows in the sample the simulation reports
at tick 1024 — exactly, hence within any floating-point tolerance: both are
`24 / 1024`. -/
theorem claim_C1_agreement :
    ((calculate_row_states_over_time 1024 1024)[1024]?).map
        (fun s => ((s.settled_green + s.settled_blue : ℤ) : ℚ) / 1024) =
      PerformanceGraphs.calculate_usable_fraction 1024 1024 1 1 := by
  have hidx : (calculate_row_states_over_time 1024 1024)[1024]? =
      some (mkSample 1024 (stateAfter 1024 1024)) := by
    simp only [calculate_row_states_over_time]
    rw [show (1024 : ℕ) = 1023 + 1 from rfl, List.getElem?_cons_succ, List.getElem?_map,
      show Int.toNat 1024 = 1023 + 1 from rfl, List.getElem?_range (by omega)]
    simp only [Option.map_some']
    rw [show ((1023 : ℕ) : ℤ) + 1 = 1024 by norm_num]
  rw [hidx, show (1024 : ℕ) = 9 + 1015 from rfl,
    stateAfter_sweep1 1015 (by omega) (by omega)]
  simp only [Option.map_some, mkSample, countRows_writtenRows_1015]
  have hPG : PerformanceGraphs.calculate_usable_fraction 1024 1024 1 1 =
      some (24 / 1024) := by
    have hf : Int.fdiv 1024 1 = 1024 := by decide
    have hf2 : Int.fdiv 24 1 = 24 := by decide
    simp only [PerformanceGraphs.calculate_usable_fraction, hf, hf2, min_def, max_def]
    norm_num
  rw [hPG]
  norm_num

